import Mathlib

set_option autoImplicit false

namespace Jernel

/-
Shallow embedding of the jernel daemon core:
- internal/daemon/scheduler.go : PeriodToDuration, CalculateNextInterval, cryptoRandDuration
- internal/daemon/pidfile.go   : WritePID, ReadPID, RemovePID, IsRunning
- internal/daemon/state (daemon package) : State, SaveState, LoadState
- internal/daemon/daemon.go    : Start, run (one loop iteration), generateEntry, selectPersona

Durations and timestamps are modelled as nanosecond counts (Go time.Duration /
time.Time both have nanosecond resolution); durations live in Nat because every
duration the scheduler manipulates is non-negative, timestamps live in Int.
The crypto/rand source is modelled by an oracle randInt : Nat → Option Nat
(rand.Int: a draw in [0, bound), or none for a failure of the source).
The filesystem is modelled by an Fs record (contents of the pid file, contents
of the state file as a parsed JSON object, and the set of pids that respond to
signal 0), together with an explicit trace of filesystem operations (FsOp).
-/

def Hour : Nat := 3600 * 1000000000

inductive SchedErr where
  | invalidRate (rate : Int)
  | invalidPeriod (period : String)
deriving DecidableEq, Repr

/-- The three period strings accepted by the switch in PeriodToDuration. -/
def recognizedPeriod (period : String) : Bool :=
  period = "hour" || period = "day" || period = "week"

/-- PeriodToDuration converts a rate period string to a duration (scheduler.go). -/
def PeriodToDuration (period : String) : Except SchedErr Nat :=
  if period = "hour" then Except.ok Hour
  else if period = "day" then Except.ok (24 * Hour)
  else if period = "week" then Except.ok (7 * (24 * Hour))
  else Except.error (SchedErr.invalidPeriod period)

/-- cryptoRandDuration returns a random duration between 0 and bound (scheduler.go);
none models a failure of crypto/rand. -/
def cryptoRandDuration (randInt : Nat → Option Nat) (bound : Nat) : Option Nat :=
  if bound ≤ 0 then some 0 else randInt bound

/-- CalculateNextInterval returns a random duration for the next trigger
(scheduler.go): random value between 0.5x and 1.5x the average interval. -/
def CalculateNextInterval (randInt : Nat → Option Nat) (rate : Int) (period : String) :
    Except SchedErr Nat :=
  if rate ≤ 0 then Except.error (SchedErr.invalidRate rate)
  else
    match PeriodToDuration period with
    | Except.error e => Except.error e
    | Except.ok periodDuration =>
      let avgInterval := periodDuration / rate.toNat
      let minInterval := avgInterval / 2
      let maxInterval := avgInterval + avgInterval / 2
      let rangeSize := maxInterval - minInterval
      if rangeSize ≤ 0 then Except.ok avgInterval
      else
        match cryptoRandDuration randInt rangeSize with
        | none => Except.ok avgInterval
        | some randomOffset => Except.ok (minInterval + randomOffset)

/-- JSON values as they appear in the daemon state file. A jtime is the
RFC3339Nano string produced by time.Time MarshalJSON, kept abstract as the
instant it denotes (the textual format is injective at nanosecond resolution). -/
inductive JValue where
  | jnum (n : Int)
  | jstr (s : String)
  | jtime (t : Int)
deriving DecidableEq, Repr

/-- State holds the daemon runtime state (daemon package). -/
structure State where
  PID : Int
  StartedAt : Int
  NextTrigger : Int
  EntriesGenerated : Int
  LastEntryAt : Int
  LastPersona : String
deriving DecidableEq, Repr

def PIDPath : String := ".config/jernel/daemon.pid"

def StatePath : String := ".config/jernel/daemon.state"

inductive FileData where
  | text (s : String)
  | json (obj : List (String × JValue))
deriving DecidableEq, Repr

inductive FsOp where
  | writeFile (path : String) (data : FileData)
  | rename (src : String) (dst : String)
  | remove (path : String)
deriving DecidableEq, Repr

/-- The filesystem as the daemon core sees it. -/
structure Fs where
  pidFile : Option String
  stateFile : Option (List (String × JValue))
  livePids : List Int
deriving DecidableEq, Repr

/-- json.MarshalIndent on State: struct tags pid, started_at, next_trigger,
entries_generated, last_entry_at (omitempty is inert on the struct type
time.Time, so the field is always emitted), last_persona (omitempty on a
string: omitted when empty). -/
def marshalState (st : State) : List (String × JValue) :=
  [("pid", JValue.jnum st.PID),
   ("started_at", JValue.jtime st.StartedAt),
   ("next_trigger", JValue.jtime st.NextTrigger),
   ("entries_generated", JValue.jnum st.EntriesGenerated),
   ("last_entry_at", JValue.jtime st.LastEntryAt)] ++
  (if st.LastPersona = "" then [] else [("last_persona", JValue.jstr st.LastPersona)])

def decodeNum : Option JValue → Option Int
  | none => some 0
  | some (JValue.jnum n) => some n
  | some _ => none

def decodeStr : Option JValue → Option String
  | none => some ""
  | some (JValue.jstr s) => some s
  | some _ => none

def decodeTime : Option JValue → Option Int
  | none => some 0
  | some (JValue.jtime t) => some t
  | some _ => none

/-- json.Unmarshal into State: a missing key leaves the zero value, a key of the
wrong JSON type is an error. -/
def unmarshalState (obj : List (String × JValue)) : Option State := do
  let pid ← decodeNum (obj.lookup "pid")
  let startedAt ← decodeTime (obj.lookup "started_at")
  let nextTrigger ← decodeTime (obj.lookup "next_trigger")
  let entriesGenerated ← decodeNum (obj.lookup "entries_generated")
  let lastEntryAt ← decodeTime (obj.lookup "last_entry_at")
  let lastPersona ← decodeStr (obj.lookup "last_persona")
  some ⟨pid, startedAt, nextTrigger, entriesGenerated, lastEntryAt, lastPersona⟩

/-- SaveState writes the daemon state to disk (daemon package): marshal, then a
single os.WriteFile of the serialized bytes at the state path. -/
def SaveState (fs : Fs) (st : State) : Fs × List FsOp :=
  ({ fs with stateFile := some (marshalState st) },
   [FsOp.writeFile StatePath (FileData.json (marshalState st))])

inductive LoadResult where
  | absent
  | corrupt
  | loaded (st : State)
deriving DecidableEq, Repr

/-- LoadState reads the daemon state from disk (daemon package): a missing file
is absent (nil, nil), an unparseable file is an error. -/
def LoadState (fs : Fs) : LoadResult :=
  match fs.stateFile with
  | none => LoadResult.absent
  | some obj =>
    match unmarshalState obj with
    | none => LoadResult.corrupt
    | some st => LoadResult.loaded st

def digitsVal (l : List Char) : Nat :=
  l.foldl (fun acc c => acc * 10 + (c.toNat - 48)) 0

/-- strconv.Atoi: an optional sign followed by at least one decimal digit. -/
def goAtoi (s : String) : Option Int :=
  match s.data with
  | [] => none
  | c :: rest =>
    if c = '-' then
      if rest ≠ [] ∧ rest.all Char.isDigit then some (-(digitsVal rest : Int)) else none
    else if c = '+' then
      if rest ≠ [] ∧ rest.all Char.isDigit then some ((digitsVal rest : Int)) else none
    else
      if (c :: rest).all Char.isDigit then some ((digitsVal (c :: rest) : Int)) else none

inductive PidErr where
  | notExist
  | invalidPid
deriving DecidableEq, Repr

/-- ReadPID reads the PID from the PID file (pidfile.go): a missing file is the
os.IsNotExist error, unparseable contents are the invalid-PID error. -/
def ReadPID (fs : Fs) : Except PidErr Int :=
  match fs.pidFile with
  | none => Except.error PidErr.notExist
  | some content =>
    match goAtoi content with
    | none => Except.error PidErr.invalidPid
    | some pid => Except.ok pid

/-- WritePID writes the current process id to the PID file (pidfile.go). -/
def WritePID (fs : Fs) (selfPid : Int) : Fs × List FsOp :=
  ({ fs with pidFile := some (toString selfPid) },
   [FsOp.writeFile PIDPath (FileData.text (toString selfPid))])

/-- RemovePID removes the PID file (pidfile.go); missing file is not an error. -/
def RemovePID (fs : Fs) : Fs × List FsOp :=
  ({ fs with pidFile := none }, [FsOp.remove PIDPath])

/-- IsRunning checks whether a daemon process is currently running (pidfile.go):
read the pid (absent file means not running, other read errors propagate), then
probe the process with signal 0 (on Unix os.FindProcess itself never fails);
a dead process means the stale PID file is removed and (false, 0) returned. -/
def IsRunning (fs : Fs) : Fs × Except PidErr (Bool × Int) :=
  match ReadPID fs with
  | Except.error PidErr.notExist => (fs, Except.ok (false, 0))
  | Except.error e => (fs, Except.error e)
  | Except.ok pid =>
    if fs.livePids.contains pid then (fs, Except.ok (true, pid))
    else ({ fs with pidFile := none }, Except.ok (false, 0))

/-- DaemonConfig holds settings for autonomous entry generation (config). -/
structure DaemonConfig where
  Rate : Int
  RatePeriod : String
  Personas : List String
deriving DecidableEq, Repr

/-- Config holds application-level settings (the fields the daemon uses). -/
structure Config where
  DefaultPersona : String
  Daemon : DaemonConfig
deriving DecidableEq, Repr

inductive StartErr where
  | checkFailed (e : PidErr)
  | alreadyRunning (pid : Int)
  | calcTrigger (e : SchedErr)
deriving DecidableEq, Repr

/-- Outcome of Daemon.Start: the filesystem afterwards, the trace of filesystem
operations performed, the synchronous result, and whether the background run
loop goroutine was launched. -/
structure StartOutcome where
  fs : Fs
  ops : List FsOp
  result : Except StartErr State
  loopLaunched : Bool
deriving Repr

/-- Daemon.Start (daemon.go): check IsRunning, write the PID file, compute the
first trigger (CalculateNextTrigger = now + CalculateNextInterval; on error the
PID file is removed again and the error returned), build and save the initial
State, then launch the run loop goroutine. -/
def DaemonStart (randInt : Nat → Option Nat) (selfPid : Int) (now : Int)
    (cfg : Config) (fs : Fs) : StartOutcome :=
  match IsRunning fs with
  | (fs1, Except.error e) => ⟨fs1, [], Except.error (StartErr.checkFailed e), false⟩
  | (fs1, Except.ok (true, pid)) => ⟨fs1, [], Except.error (StartErr.alreadyRunning pid), false⟩
  | (fs1, Except.ok (false, _)) =>
    let w := WritePID fs1 selfPid
    match CalculateNextInterval randInt cfg.Daemon.Rate cfg.Daemon.RatePeriod with
    | Except.error e =>
      let r := RemovePID w.1
      ⟨r.1, w.2 ++ r.2, Except.error (StartErr.calcTrigger e), false⟩
    | Except.ok interval =>
      let st : State := { PID := selfPid, StartedAt := now,
                          NextTrigger := now + (interval : Int),
                          EntriesGenerated := 0, LastEntryAt := 0, LastPersona := "" }
      let sv := SaveState w.1 st
      ⟨sv.1, w.2 ++ sv.2, Except.ok st, true⟩

/-- selectPersona chooses a persona for the next entry (daemon.go): the default
persona when none are configured, the single configured one, otherwise a
uniform random pick (falling back to the first persona on randomness failure). -/
def selectPersona (randInt : Nat → Option Nat) (cfg : Config) : String :=
  let personas := cfg.Daemon.Personas
  if personas.length = 0 then cfg.DefaultPersona
  else if personas.length = 1 then personas.getD 0 ""
  else
    match randInt personas.length with
    | none => personas.getD 0 ""
    | some idx => personas.getD idx ""

/-- generateEntry (daemon.go): invoke the external generator (entry.Generate,
modelled by its result workResult); on failure return the error with the state
untouched; on success increment EntriesGenerated, set LastEntryAt and
LastPersona, and save the state. -/
def generateEntry (fs : Fs) (workResult : Except String Nat) (persona : String)
    (now : Int) (st : State) : Fs × List FsOp × State :=
  match workResult with
  | Except.error _ => (fs, [], st)
  | Except.ok _ =>
    let st1 := { st with EntriesGenerated := st.EntriesGenerated + 1,
                         LastEntryAt := now, LastPersona := persona }
    let sv := SaveState fs st1
    (sv.1, sv.2, st1)

/-- The three cases of the select statement in the run loop (daemon.go). -/
inductive Branch where
  | ctxDone
  | shutdown
  | timer
deriving DecidableEq, Repr

/-- Which select branches are ready, given the state of the three channels. Go
select chooses uniformly at random among the ready cases, so any ready branch
is a possible choice. -/
def selectReady (ctxDone shutdownClosed timerFired : Bool) : Branch → Bool
  | Branch.ctxDone => ctxDone
  | Branch.shutdown => shutdownClosed
  | Branch.timer => timerFired

/-- Outcome of one iteration of the run loop: none means the loop returned
(shutdown path), some st means it continues with state st. -/
structure StepOutcome where
  continued : Option State
  workInvoked : Bool
  ops : List FsOp
  fs : Fs
deriving DecidableEq, Repr

/-- One iteration of Daemon.run (daemon.go), given the branch the select
statement chose: the cancellation branches return from the loop without
touching anything; the timer branch runs generateEntry (its error only
logged), recomputes the next trigger (an error there logs and continues), and
saves the updated state. -/
def runStep (randInt : Nat → Option Nat) (cfg : Config) (workResult : Except String Nat)
    (now : Int) (choice : Branch) (fs : Fs) (st : State) : StepOutcome :=
  match choice with
  | Branch.ctxDone => ⟨none, false, [], fs⟩
  | Branch.shutdown => ⟨none, false, [], fs⟩
  | Branch.timer =>
    let persona := selectPersona randInt cfg
    let g := generateEntry fs workResult persona now st
    match CalculateNextInterval randInt cfg.Daemon.Rate cfg.Daemon.RatePeriod with
    | Except.error _ => ⟨some g.2.2, true, g.2.1, g.1⟩
    | Except.ok interval =>
      let st2 := { g.2.2 with NextTrigger := now + (interval : Int) }
      let sv := SaveState g.1 st2
      ⟨some st2, true, g.2.1 ++ sv.2, sv.1⟩

/-- Concrete fixtures mirroring the repository test data. -/
def emptyFs : Fs := { pidFile := none, stateFile := none, livePids := [] }

def exampleState : State :=
  { PID := 12345, StartedAt := 1000, NextTrigger := 2000,
    EntriesGenerated := 5, LastEntryAt := 1500, LastPersona := "test_persona" }

def validCfg : Config :=
  { DefaultPersona := "default",
    Daemon := { Rate := 3, RatePeriod := "day", Personas := [] } }

def badCfg : Config :=
  { DefaultPersona := "default",
    Daemon := { Rate := 0, RatePeriod := "day", Personas := [] } }

def staleFs : Fs := { pidFile := some "999999999", stateFile := none, livePids := [] }

def corruptFs : Fs := { pidFile := some "abc", stateFile := none, livePids := [] }

/-- The write-to-temp-then-rename persistence pattern, as a predicate on an
operation trace. -/
def WriteTempThenRename (ops : List FsOp) (path : String) : Prop :=
  ∃ tmp data, tmp ≠ path ∧ ops = [FsOp.writeFile tmp data, FsOp.rename tmp path]

/-
Helper lemmas shared by the claim theorems.
-/

theorem periodToDuration_ok_of_recognized (period : String)
    (h : recognizedPeriod period = true) :
    ∃ p, PeriodToDuration period = Except.ok p ∧ 0 < p := by
  simp only [recognizedPeriod, Bool.or_eq_true, decide_eq_true_eq] at h
  rcases h with (h | h) | h <;> subst h
  · exact ⟨Hour, rfl, by decide⟩
  · exact ⟨24 * Hour, rfl, by decide⟩
  · exact ⟨7 * (24 * Hour), rfl, by decide⟩

theorem periodToDuration_error_of_unrecognized (period : String)
    (h : recognizedPeriod period = false) :
    PeriodToDuration period = Except.error (SchedErr.invalidPeriod period) := by
  simp only [recognizedPeriod, Bool.or_eq_false_iff, decide_eq_false_iff_not] at h
  obtain ⟨⟨h1, h2⟩, h3⟩ := h
  simp [PeriodToDuration, h1, h2, h3]

theorem calcInterval_ok_of_valid (randInt : Nat → Option Nat) (rate : Int) (period : String)
    (h1 : 0 < rate) (h2 : recognizedPeriod period = true) :
    ∃ d, CalculateNextInterval randInt rate period = Except.ok d := by
  obtain ⟨p, hp, -⟩ := periodToDuration_ok_of_recognized period h2
  simp only [CalculateNextInterval, if_neg (not_le.mpr h1), hp]
  by_cases h0 : p / rate.toNat + p / rate.toNat / 2 - p / rate.toNat / 2 ≤ 0
  · rw [if_pos h0]
    exact ⟨_, rfl⟩
  · rw [if_neg h0]
    cases cryptoRandDuration randInt (p / rate.toNat + p / rate.toNat / 2 - p / rate.toNat / 2) with
    | none => exact ⟨_, rfl⟩
    | some n => exact ⟨_, rfl⟩

theorem calcInterval_error_of_invalid (randInt : Nat → Option Nat) (rate : Int) (period : String)
    (h : rate ≤ 0 ∨ recognizedPeriod period = false) :
    ∃ e, CalculateNextInterval randInt rate period = Except.error e := by
  rcases h with h | h
  · exact ⟨SchedErr.invalidRate rate, by simp [CalculateNextInterval, if_pos h]⟩
  · by_cases hr : rate ≤ 0
    · exact ⟨SchedErr.invalidRate rate, by simp [CalculateNextInterval, if_pos hr]⟩
    · exact ⟨SchedErr.invalidPeriod period, by
        simp [CalculateNextInterval, if_neg hr, periodToDuration_error_of_unrecognized period h]⟩

/-
Claim theorems.
-/

/-- C1: for every rate > 0 and every recognized period, CalculateNextInterval
succeeds with a duration d satisfying average/2 ≤ d ≤ average + average/2,
where average = PeriodToDuration(period)/rate in nanoseconds (average +
average/2 is average*1.5 at the integer nanosecond resolution of
time.Duration); this holds for every behaviour of the randomness source that
respects the rand.Int contract (a draw below the bound, or a failure). -/
theorem CalculateNextInterval_bounds (randInt : Nat → Option Nat)
    (hrand : ∀ m n, randInt m = some n → n < m)
    (rate : Int) (period : String) (p : Nat)
    (hrate : 0 < rate) (hper : PeriodToDuration period = Except.ok p) :
    ∃ d, CalculateNextInterval randInt rate period = Except.ok d ∧
      p / rate.toNat / 2 ≤ d ∧ d ≤ p / rate.toNat + p / rate.toNat / 2 := by
  simp only [CalculateNextInterval, if_neg (not_le.mpr hrate), hper]
  obtain ⟨avg, havg⟩ : ∃ a, p / rate.toNat = a := ⟨_, rfl⟩
  rw [havg]
  have hcancel : avg + avg / 2 - avg / 2 = avg := by omega
  rw [hcancel]
  by_cases h0 : avg ≤ 0
  · rw [if_pos h0]
    exact ⟨avg, rfl, by omega, by omega⟩
  · rw [if_neg h0, cryptoRandDuration, if_neg h0]
    cases hr : randInt avg with
    | none => exact ⟨avg, rfl, by omega, by omega⟩
    | some n =>
      have hn := hrand _ _ hr
      exact ⟨avg / 2 + n, rfl, by omega, by omega⟩

/-- C1 witness: a randomness source that always draws the maximal allowed
value, at rate = 3 and period = day (average 8h in nanoseconds). -/
theorem CalculateNextInterval_bounds_witness :
    ∃ d, CalculateNextInterval (fun m => if m = 0 then none else some (m - 1)) 3 "day" =
        Except.ok d ∧
      86400000000000 / (3 : Int).toNat / 2 ≤ d ∧
      d ≤ 86400000000000 / (3 : Int).toNat + 86400000000000 / (3 : Int).toNat / 2 :=
  CalculateNextInterval_bounds (fun m => if m = 0 then none else some (m - 1))
    (by
      intro m n h
      by_cases hm : m = 0
      · simp [hm] at h
      · simp [hm] at h
        omega)
    3 "day" 86400000000000 (by decide) (by rfl)

/-- C2: CalculateNextInterval fails exactly on invalid inputs: every rate ≤ 0
fails with the invalid-rate error, every unrecognized period (at positive rate,
the rate being checked first) fails with the invalid-period error, and every
valid input succeeds for every behaviour of the randomness source — including
an always-failing one, whose error is downgraded to returning the average. -/
theorem CalculateNextInterval_error_spec (randInt : Nat → Option Nat)
    (rate : Int) (period : String) :
    (rate ≤ 0 →
      CalculateNextInterval randInt rate period =
        Except.error (SchedErr.invalidRate rate)) ∧
    (0 < rate → recognizedPeriod period = false →
      CalculateNextInterval randInt rate period =
        Except.error (SchedErr.invalidPeriod period)) ∧
    (0 < rate → recognizedPeriod period = true →
      ∃ d, CalculateNextInterval randInt rate period = Except.ok d) := by
  refine ⟨fun h => by simp [CalculateNextInterval, if_pos h], fun h1 h2 => ?_, fun h1 h2 =>
    calcInterval_ok_of_valid randInt rate period h1 h2⟩
  simp [CalculateNextInterval, if_neg (not_le.mpr h1),
    periodToDuration_error_of_unrecognized period h2]

/-- C2 witness: rate 0 with a failing randomness source fails with the
invalid-rate error, and rate 3 with period day succeeds even when the
randomness source always fails. -/
theorem CalculateNextInterval_error_spec_witness :
    CalculateNextInterval (fun _ => none) 0 "day" =
        Except.error (SchedErr.invalidRate 0) ∧
      ∃ d, CalculateNextInterval (fun _ => none) 3 "day" = Except.ok d :=
  ⟨(CalculateNextInterval_error_spec (fun _ => none) 0 "day").1 (by decide),
   (CalculateNextInterval_error_spec (fun _ => none) 3 "day").2.2 (by decide) (by decide)⟩

/-- C9: PeriodToDuration returns exactly 1 hour for hour, 24 hours for day and
168 hours for week (in nanoseconds), and fails with the invalid-period error on
every other string. -/
theorem PeriodToDuration_spec :
    PeriodToDuration "hour" = Except.ok Hour ∧
    PeriodToDuration "day" = Except.ok (24 * Hour) ∧
    PeriodToDuration "week" = Except.ok (168 * Hour) ∧
    ∀ s, s ≠ "hour" → s ≠ "day" → s ≠ "week" →
      PeriodToDuration s = Except.error (SchedErr.invalidPeriod s) := by
  refine ⟨rfl, rfl, rfl, fun s h1 h2 h3 => ?_⟩
  simp [PeriodToDuration, h1, h2, h3]

/-- C9 witness: the unrecognized period month is rejected. -/
theorem PeriodToDuration_spec_witness :
    PeriodToDuration "month" = Except.error (SchedErr.invalidPeriod "month") :=
  PeriodToDuration_spec.2.2.2 "month" (by decide) (by decide) (by decide)

theorem unmarshal_marshal (st : State) : unmarshalState (marshalState st) = some st := by
  rcases st with ⟨pid, sa, nt, eg, lea, lp⟩
  by_cases h : lp = ""
  · subst h
    rfl
  · simp only [marshalState, if_neg h]
    rfl

/-- C8: a SaveState followed by a LoadState reproduces every field of the
RunState exactly, including zero-valued counters and the nullable fields
LastEntryAt and LastPersona (whose empty value is omitted from the file and
restored as the zero value on load) — the round trip is the identity. -/
theorem SaveState_LoadState_roundtrip (fs : Fs) (st : State) :
    LoadState (SaveState fs st).1 = LoadResult.loaded st := by
  simp [SaveState, LoadState, unmarshal_marshal]

/-- C5 counterexample: SaveState does not persist by write-to-temp-then-rename;
its operation trace at a concrete state is a single direct write to the state
path, not a write to a temporary file followed by a rename. -/
theorem SaveState_not_temp_rename :
    ¬ WriteTempThenRename (SaveState emptyFs exampleState).2 StatePath := by
  rintro ⟨tmp, data, hne, heq⟩
  simp [SaveState] at heq

/-- C5 amended: SaveState persists the RunState by serializing it and writing
the serialized content directly to the well-known path in a single write call;
no temporary file and no rename operation is involved. -/
theorem SaveState_direct_write (fs : Fs) (st : State) :
    (SaveState fs st).2 = [FsOp.writeFile StatePath (FileData.json (marshalState st))] ∧
    (SaveState fs st).1.stateFile = some (marshalState st) ∧
    ∀ op ∈ (SaveState fs st).2, ∀ a b, op ≠ FsOp.rename a b := by
  refine ⟨rfl, rfl, ?_⟩
  intro op hop a b
  simp only [SaveState, List.mem_singleton] at hop
  subst hop
  simp

/-- C5 amended witness: at a concrete state the trace is the single direct
write, which is not a rename. -/
theorem SaveState_direct_write_witness :
    (SaveState emptyFs exampleState).2 =
        [FsOp.writeFile StatePath (FileData.json (marshalState exampleState))] ∧
      FsOp.writeFile StatePath (FileData.json (marshalState exampleState)) ≠
        FsOp.rename StatePath StatePath :=
  ⟨(SaveState_direct_write emptyFs exampleState).1,
   (SaveState_direct_write emptyFs exampleState).2.2 _ (by simp [SaveState])
     StatePath StatePath⟩

/-- C7: if the PID file holds a process identifier whose process does not
respond to the signal-0 liveness probe, IsRunning removes the stale marker and
returns (false, 0) with no error; afterwards the marker is gone. -/
theorem IsRunning_stale_cleanup (fs : Fs) (content : String) (pid : Int)
    (hfile : fs.pidFile = some content)
    (hparse : goAtoi content = some pid)
    (hdead : fs.livePids.contains pid = false) :
    IsRunning fs = ({ fs with pidFile := none }, Except.ok (false, 0)) := by
  have hd : pid ∉ fs.livePids := by simpa using hdead
  simp [IsRunning, ReadPID, hfile, hparse, hd]

/-- C7 witness: a marker holding pid 999999999 with no such live process, as in
the repository test for stale-PID cleanup. -/
theorem IsRunning_stale_cleanup_witness :
    IsRunning staleFs = ({ staleFs with pidFile := none }, Except.ok (false, 0)) :=
  IsRunning_stale_cleanup staleFs "999999999" 999999999 rfl (by rfl) rfl

/-- C10: if the PID file exists but its contents are not a valid integer,
IsRunning returns the invalid-PID error rather than the absent result, and
leaves the filesystem (in particular the marker file) untouched. -/
theorem IsRunning_corrupt_marker (fs : Fs) (content : String)
    (hfile : fs.pidFile = some content)
    (hparse : goAtoi content = none) :
    IsRunning fs = (fs, Except.error PidErr.invalidPid) := by
  simp [IsRunning, ReadPID, hfile, hparse]

/-- C10 witness: a marker containing the non-numeric text abc. -/
theorem IsRunning_corrupt_marker_witness :
    IsRunning corruptFs = (corruptFs, Except.error PidErr.invalidPid) :=
  IsRunning_corrupt_marker corruptFs "abc" rfl (by rfl)

theorem isRunning_of_no_pidFile (fs : Fs) (h : fs.pidFile = none) :
    IsRunning fs = (fs, Except.ok (false, 0)) := by
  simp [IsRunning, ReadPID, h]

/-- C3 counterexample: on a clean filesystem, Daemon.Start with an invalid
configuration (rate 0) does return the error synchronously without launching
the loop, but it writes the PID file before validating the configuration (and
only then removes it), so the claim that neither the PID file nor the state
file is written as a result of the failed Start is false at this input. -/
theorem DaemonStart_writes_pid_counterexample :
    ¬ ((DaemonStart (fun _ => none) 42 0 badCfg emptyFs).loopLaunched = false ∧
       (∃ e, (DaemonStart (fun _ => none) 42 0 badCfg emptyFs).result = Except.error e) ∧
       (∀ data, FsOp.writeFile PIDPath data ∉
          (DaemonStart (fun _ => none) 42 0 badCfg emptyFs).ops) ∧
       (∀ data, FsOp.writeFile StatePath data ∉
          (DaemonStart (fun _ => none) 42 0 badCfg emptyFs).ops)) := by
  rintro ⟨-, -, hpid, -⟩
  have hops : (DaemonStart (fun _ => none) 42 0 badCfg emptyFs).ops =
      [FsOp.writeFile PIDPath (FileData.text "42"), FsOp.remove PIDPath] := rfl
  exact hpid (FileData.text "42") (by rw [hops]; exact List.mem_cons_self _ _)

/-- C3 amended: when Start is called with an invalid configuration on a clean
filesystem, the configuration error is returned synchronously before any
background task is launched and before the RunState file is written; the PID
file, however, is written before the configuration is validated and removed
again on the error path, so no marker remains after the failed Start. -/
theorem DaemonStart_invalid_config (randInt : Nat → Option Nat) (selfPid now : Int)
    (cfg : Config) (fs : Fs)
    (hclean : fs.pidFile = none)
    (hinvalid : cfg.Daemon.Rate ≤ 0 ∨ recognizedPeriod cfg.Daemon.RatePeriod = false) :
    ∃ e, (DaemonStart randInt selfPid now cfg fs).result =
          Except.error (StartErr.calcTrigger e) ∧
      (DaemonStart randInt selfPid now cfg fs).loopLaunched = false ∧
      (DaemonStart randInt selfPid now cfg fs).fs.stateFile = fs.stateFile ∧
      (∀ data, FsOp.writeFile StatePath data ∉ (DaemonStart randInt selfPid now cfg fs).ops) ∧
      (DaemonStart randInt selfPid now cfg fs).fs.pidFile = none ∧
      FsOp.writeFile PIDPath (FileData.text (toString selfPid)) ∈
        (DaemonStart randInt selfPid now cfg fs).ops := by
  obtain ⟨e, he⟩ :=
    calcInterval_error_of_invalid randInt cfg.Daemon.Rate cfg.Daemon.RatePeriod hinvalid
  have hIR := isRunning_of_no_pidFile fs hclean
  have hrun : DaemonStart randInt selfPid now cfg fs =
      ⟨{ fs with pidFile := none },
        [FsOp.writeFile PIDPath (FileData.text (toString selfPid)), FsOp.remove PIDPath],
        Except.error (StartErr.calcTrigger e), false⟩ := by
    simp only [DaemonStart, hIR, he, WritePID, RemovePID, List.cons_append, List.nil_append]
  rw [hrun]
  refine ⟨e, rfl, rfl, rfl, ?_, rfl, List.mem_cons_self _ _⟩
  intro data hmem
  have hne : StatePath ≠ PIDPath := by decide
  rcases List.mem_cons.mp hmem with h | h
  · injection h with h1 h2
    exact hne h1
  · rcases List.mem_singleton.mp h with h
    exact FsOp.noConfusion h

/-- C3 amended witness: rate 0 with period day on the clean filesystem. -/
theorem DaemonStart_invalid_config_witness :
    ∃ e, (DaemonStart (fun _ => none) 42 0 badCfg emptyFs).result =
          Except.error (StartErr.calcTrigger e) ∧
      (DaemonStart (fun _ => none) 42 0 badCfg emptyFs).loopLaunched = false ∧
      (DaemonStart (fun _ => none) 42 0 badCfg emptyFs).fs.stateFile = emptyFs.stateFile ∧
      (∀ data, FsOp.writeFile StatePath data ∉
        (DaemonStart (fun _ => none) 42 0 badCfg emptyFs).ops) ∧
      (DaemonStart (fun _ => none) 42 0 badCfg emptyFs).fs.pidFile = none ∧
      FsOp.writeFile PIDPath (FileData.text (toString (42 : Int))) ∈
        (DaemonStart (fun _ => none) 42 0 badCfg emptyFs).ops :=
  DaemonStart_invalid_config (fun _ => none) 42 0 badCfg emptyFs rfl (Or.inl (by decide))

/-- C4 counterexample: when the cancellation channel and the trigger are ready
simultaneously, the Go select statement may choose any ready case; choosing
the timer branch is a valid selection, and in that execution the work unit is
invoked once more and the loop does not transition to Stopping — so the claim
that cancellation always wins is false at this input. -/
theorem select_no_priority_counterexample :
    ¬ (∀ b : Branch, selectReady true false true b = true →
        (runStep (fun _ => none) validCfg (Except.ok 1) 0 b emptyFs exampleState).continued =
            none ∧
          (runStep (fun _ => none) validCfg (Except.ok 1) 0 b emptyFs
              exampleState).workInvoked = false) := by
  intro h
  have h2 := (h Branch.timer rfl).2
  have hw : (runStep (fun _ => none) validCfg (Except.ok 1) 0 Branch.timer emptyFs
      exampleState).workInvoked = true := rfl
  rw [hw] at h2
  exact Bool.noConfusion h2

/-- C4 amended: whenever the select statement chooses one of the two
cancellation branches (context done or stop request), the loop returns at once
— transitioning to Stopping — without invoking the work unit and without any
filesystem side effect; but the choice among simultaneously ready branches is
a uniform pseudo-random pick, so cancellation is not prioritized over a
simultaneously ready trigger. -/
theorem runStep_cancellation_exits (randInt : Nat → Option Nat) (cfg : Config)
    (workResult : Except String Nat) (now : Int) (b : Branch) (fs : Fs) (st : State)
    (hb : b = Branch.ctxDone ∨ b = Branch.shutdown) :
    (runStep randInt cfg workResult now b fs st).continued = none ∧
    (runStep randInt cfg workResult now b fs st).workInvoked = false ∧
    (runStep randInt cfg workResult now b fs st).ops = [] ∧
    (runStep randInt cfg workResult now b fs st).fs = fs := by
  rcases hb with h | h <;> subst h <;> exact ⟨rfl, rfl, rfl, rfl⟩

/-- C4 amended witness: the context-done branch at a concrete configuration. -/
theorem runStep_cancellation_exits_witness :
    (runStep (fun _ => none) validCfg (Except.ok 1) 0 Branch.ctxDone emptyFs
        exampleState).continued = none ∧
      (runStep (fun _ => none) validCfg (Except.ok 1) 0 Branch.ctxDone emptyFs
        exampleState).workInvoked = false ∧
      (runStep (fun _ => none) validCfg (Except.ok 1) 0 Branch.ctxDone emptyFs
        exampleState).ops = [] ∧
      (runStep (fun _ => none) validCfg (Except.ok 1) 0 Branch.ctxDone emptyFs
        exampleState).fs = emptyFs :=
  runStep_cancellation_exits (fun _ => none) validCfg (Except.ok 1) 0 Branch.ctxDone
    emptyFs exampleState (Or.inl rfl)

/-- C6: in every timer-fired iteration of the running loop with a valid
configuration, the work unit is invoked; on success the counters and
last-entry fields are updated and on failure they are untouched; in both cases
the next trigger is recomputed from the scheduler and the updated state is
persisted to the state file; and the loop always continues to the next wait
(a work-unit failure never terminates it). -/
theorem runStep_timer_invariants (randInt : Nat → Option Nat) (cfg : Config)
    (workResult : Except String Nat) (now : Int) (fs : Fs) (st : State)
    (hrate : 0 < cfg.Daemon.Rate) (hper : recognizedPeriod cfg.Daemon.RatePeriod = true) :
    ∃ d, CalculateNextInterval randInt cfg.Daemon.Rate cfg.Daemon.RatePeriod = Except.ok d ∧
      (runStep randInt cfg workResult now Branch.timer fs st).workInvoked = true ∧
      (∀ id, workResult = Except.ok id →
        (runStep randInt cfg workResult now Branch.timer fs st).continued =
          some { st with EntriesGenerated := st.EntriesGenerated + 1,
                         LastEntryAt := now,
                         LastPersona := selectPersona randInt cfg,
                         NextTrigger := now + (d : Int) }) ∧
      (∀ err, workResult = Except.error err →
        (runStep randInt cfg workResult now Branch.timer fs st).continued =
          some { st with NextTrigger := now + (d : Int) }) ∧
      (∀ st2, (runStep randInt cfg workResult now Branch.timer fs st).continued = some st2 →
        (runStep randInt cfg workResult now Branch.timer fs st).fs.stateFile =
            some (marshalState st2) ∧
          FsOp.writeFile StatePath (FileData.json (marshalState st2)) ∈
            (runStep randInt cfg workResult now Branch.timer fs st).ops) ∧
      (runStep randInt cfg workResult now Branch.timer fs st).continued.isSome = true := by
  obtain ⟨d, hd⟩ :=
    calcInterval_ok_of_valid randInt cfg.Daemon.Rate cfg.Daemon.RatePeriod hrate hper
  refine ⟨d, hd, ?_⟩
  cases workResult with
  | ok id =>
    have hrun : runStep randInt cfg (Except.ok id) now Branch.timer fs st =
        ⟨some { st with EntriesGenerated := st.EntriesGenerated + 1, LastEntryAt := now,
                        LastPersona := selectPersona randInt cfg,
                        NextTrigger := now + (d : Int) },
          true,
          [FsOp.writeFile StatePath (FileData.json (marshalState
              { st with EntriesGenerated := st.EntriesGenerated + 1, LastEntryAt := now,
                        LastPersona := selectPersona randInt cfg })),
           FsOp.writeFile StatePath (FileData.json (marshalState
              { st with EntriesGenerated := st.EntriesGenerated + 1, LastEntryAt := now,
                        LastPersona := selectPersona randInt cfg,
                        NextTrigger := now + (d : Int) }))],
          { fs with stateFile := some (marshalState
              { st with EntriesGenerated := st.EntriesGenerated + 1, LastEntryAt := now,
                        LastPersona := selectPersona randInt cfg,
                        NextTrigger := now + (d : Int) }) }⟩ := by
      simp only [runStep, generateEntry, SaveState, hd, List.cons_append, List.nil_append]
    rw [hrun]
    refine ⟨rfl, fun _ _ => rfl, fun err herr => Except.noConfusion herr, ?_, rfl⟩
    intro st2 hst2
    injection hst2 with hst2
    subst hst2
    exact ⟨rfl, by simp⟩
  | error err =>
    have hrun : runStep randInt cfg (Except.error err) now Branch.timer fs st =
        ⟨some { st with NextTrigger := now + (d : Int) }, true,
          [FsOp.writeFile StatePath (FileData.json (marshalState
              { st with NextTrigger := now + (d : Int) }))],
          { fs with stateFile := some (marshalState
              { st with NextTrigger := now + (d : Int) }) }⟩ := by
      simp only [runStep, generateEntry, SaveState, hd, List.nil_append]
    rw [hrun]
    refine ⟨rfl, fun _ hid => Except.noConfusion hid, fun _ _ => rfl, ?_, rfl⟩
    intro st2 hst2
    injection hst2 with hst2
    subst hst2
    exact ⟨rfl, by simp⟩

/-- C6 witness: a timer iteration at rate 3 per day with a succeeding work
unit, starting from the example state. -/
theorem runStep_timer_invariants_witness :
    ∃ d, CalculateNextInterval (fun _ => none) validCfg.Daemon.Rate
          validCfg.Daemon.RatePeriod = Except.ok d ∧
      (runStep (fun _ => none) validCfg (Except.ok 1) 0 Branch.timer emptyFs
          exampleState).workInvoked = true ∧
      (∀ id, (Except.ok 1 : Except String Nat) = Except.ok id →
        (runStep (fun _ => none) validCfg (Except.ok 1) 0 Branch.timer emptyFs
            exampleState).continued =
          some { exampleState with
                  EntriesGenerated := exampleState.EntriesGenerated + 1,
                  LastEntryAt := 0,
                  LastPersona := selectPersona (fun _ => none) validCfg,
                  NextTrigger := 0 + (d : Int) }) ∧
      (∀ err, (Except.ok 1 : Except String Nat) = Except.error err →
        (runStep (fun _ => none) validCfg (Except.ok 1) 0 Branch.timer emptyFs
            exampleState).continued =
          some { exampleState with NextTrigger := 0 + (d : Int) }) ∧
      (∀ st2, (runStep (fun _ => none) validCfg (Except.ok 1) 0 Branch.timer emptyFs
            exampleState).continued = some st2 →
        (runStep (fun _ => none) validCfg (Except.ok 1) 0 Branch.timer emptyFs
            exampleState).fs.stateFile = some (marshalState st2) ∧
          FsOp.writeFile StatePath (FileData.json (marshalState st2)) ∈
            (runStep (fun _ => none) validCfg (Except.ok 1) 0 Branch.timer emptyFs
              exampleState).ops) ∧
      (runStep (fun _ => none) validCfg (Except.ok 1) 0 Branch.timer emptyFs
          exampleState).continued.isSome = true :=
  runStep_timer_invariants (fun _ => none) validCfg (Except.ok 1) 0 emptyFs exampleState
    (by decide) (by decide)

end Jernel
